import Mathlib

/-!
# Verification of the usage-metrics and conversation-history subsystem

Shallow embedding of the persistence core of the `rag_chat` repository:

* `src/api/metrics.py` — query/error recording and aggregate statistics
  over a SQLite store (`queries`, `errors`, `document_usage` tables);
* `src/api/history.py` — per-user conversation persistence with the
  retrieved-source provenance list serialized as JSON text;
* `src/api/main.py`   — the CSV export formatter (`_serialize_to_csv`).

Tables are modelled as Lean lists of typed rows, appended in insertion
order; surrogate ids are modelled by explicit `next_*` counters
(SQLite `AUTOINCREMENT` starting at 1); `created_at` timestamps are
naturals supplied explicitly (`CURRENT_TIMESTAMP` at call time), and
SQL timestamp comparison is numeric comparison.  SQL errors raised by
`sqlite3` are modelled with `Except String`.  Python floats that enter
arithmetic are modelled as rationals.
-/

namespace RagChat

/-! ## Metrics store data model (`src/api/metrics.py`) -/

/-- A row of the `queries` table (see `init_metrics_db`). -/
structure QueryRow where
  id : Nat
  user_id : Option String
  question : String
  top_k : Int
  response_time_ms : ℚ
  success : Bool
  error_message : Option String
  sources_count : Nat
  created_at : Nat
deriving DecidableEq, Repr

/-- A row of the `errors` table. -/
structure ErrorRow where
  id : Nat
  user_id : Option String
  endpoint : String
  error_type : String
  error_message : String
  status_code : Option Int
  created_at : Nat
deriving DecidableEq, Repr

/-- A row of the `document_usage` table. -/
structure DocUsageRow where
  id : Nat
  query_id : Nat
  source_path : Option String
  page : Option Int
  created_at : Nat
deriving DecidableEq, Repr

/-- One entry of the `sources` argument of `record_query`: a Python dict
read with `source.get("source")` and `source.get("page")`, either key
possibly absent (`None`). -/
structure SourceDict where
  source : Option String
  page : Option Int
deriving DecidableEq, Repr

/-- The whole metrics SQLite database (`metrics.db`). -/
structure MetricsDB where
  queries : List QueryRow
  errors : List ErrorRow
  document_usage : List DocUsageRow
  next_query_id : Nat
  next_error_id : Nat
  next_doc_id : Nat
deriving DecidableEq, Repr

/-- Fresh store right after `init_metrics_db` on a new file: empty tables,
SQLite rowids start at 1. -/
def initMetricsDB : MetricsDB :=
  { queries := [], errors := [], document_usage := []
    next_query_id := 1, next_error_id := 1, next_doc_id := 1 }

/-- `record_query` (metrics.py lines 86-121): inserts one row into
`queries`, then one row into `document_usage` per entry of `sources`
(with `query_id = cursor.lastrowid`), and commits once — the whole
transition is a single atomic state change.  Returns the new query id
together with the post state. -/
def record_query (now : Nat) (user_id : Option String) (question : String)
    (top_k : Int) (response_time_ms : ℚ) (success : Bool)
    (sources : List SourceDict) (error_message : Option String)
    (db : MetricsDB) : Nat × MetricsDB :=
  let qid := db.next_query_id
  let qrow : QueryRow :=
    { id := qid, user_id := user_id, question := question, top_k := top_k
      response_time_ms := response_time_ms, success := success
      error_message := error_message, sources_count := sources.length
      created_at := now }
  let newDocs : List DocUsageRow :=
    sources.enum.map fun p =>
      { id := db.next_doc_id + p.1, query_id := qid
        source_path := p.2.source, page := p.2.page, created_at := now }
  (qid,
    { db with
        queries := db.queries ++ [qrow]
        document_usage := db.document_usage ++ newDocs
        next_query_id := qid + 1
        next_doc_id := db.next_doc_id + sources.length })

/-- `record_error` (metrics.py lines 124-145): inserts one row into
`errors` and returns its id. -/
def record_error (now : Nat) (user_id : Option String) (endpoint : String)
    (error_type : String) (error_message : String) (status_code : Option Int)
    (db : MetricsDB) : Nat × MetricsDB :=
  let eid := db.next_error_id
  (eid,
    { db with
        errors := db.errors ++
          [{ id := eid, user_id := user_id, endpoint := endpoint
             error_type := error_type, error_message := error_message
             status_code := status_code, created_at := now }]
        next_error_id := eid + 1 })

/-! ## Filter composition in `get_query_stats`

The Python code appends a `WHERE` clause only for *truthy* arguments:
`if user_id:` skips both `None` and `""`; `if days:` skips both `None`
and `0`. -/

/-- Truthiness of the `user_id` filter argument (`if user_id:`). -/
def userFilterActive : Option String → Bool
  | some s => s ≠ ""
  | none => false

/-- Truthiness of the `days` filter argument (`if days:`). -/
def daysFilterActive : Option Int → Bool
  | some n => n ≠ 0
  | none => false

/-- The SQL predicate `created_at >= datetime('now', '-' || days || ' days')`.
For a positive `days` this is a cutoff `now - days * 86400`; for a negative
`days` the modifier string (e.g. `'--3 days'`) is invalid, `datetime`
returns `NULL`, and the comparison is never satisfied. -/
def withinDays (now : Nat) (n : Int) (t : Nat) : Bool :=
  if 0 < n then (now : Int) - n * 86400 ≤ (t : Int) else false

/-- The composed row filter of `get_query_stats` (logical AND of the
active clauses). -/
def rowMatches (now : Nat) (user_id : Option String) (days : Option Int)
    (r : QueryRow) : Bool :=
  (!userFilterActive user_id || decide (r.user_id = user_id)) &&
  (!daysFilterActive days || withinDays now (days.getD 0) r.created_at)

/-! ## Python `round(x, 2)` on rationals -/

/-- Round-half-to-even to an integer (Python's `round` on a float whose
value is exactly representable; adequate for the rational model). -/
def roundHalfEven (q : ℚ) : ℤ :=
  let f : ℤ := ⌊q⌋
  let frac : ℚ := q - f
  if frac < 1/2 then f
  else if 1/2 < frac then f + 1
  else if f % 2 = 0 then f else f + 1

/-- Python `round(x, 2)`. -/
def pyRound2 (q : ℚ) : ℚ := (roundHalfEven (q * 100) : ℚ) / 100

/-- Python truthiness conditional `round(x, 2) if row and x else 0.0`
applied to an optional aggregate (`AVG`/`MIN`/`MAX` is `NULL` on an
empty set, and a present value of `0.0` is falsy). -/
def truthyRound : Option ℚ → ℚ
  | some q => if q = 0 then 0 else pyRound2 q
  | none => 0

/-- Minimum of a list of rationals, `none` on the empty list (SQL `MIN`). -/
def listMin (l : List ℚ) : Option ℚ :=
  l.foldl (fun acc x => match acc with
    | none => some x
    | some m => some (min m x)) none

/-- Maximum of a list of rationals, `none` on the empty list (SQL `MAX`). -/
def listMax (l : List ℚ) : Option ℚ :=
  l.foldl (fun acc x => match acc with
    | none => some x
    | some m => some (max m x)) none

/-- `SELECT top_k, COUNT(*) ... GROUP BY top_k ORDER BY count DESC LIMIT 1`:
the `top_k` value with the greatest multiplicity (first such group wins a
tie, matching an unspecified storage-engine tie-break deterministically). -/
def mostUsedTopK (rows : List QueryRow) : Option Int :=
  ((rows.map (·.top_k)).dedup.foldl (fun acc k =>
    let c := (rows.filter (fun r => r.top_k = k)).length
    match acc with
    | none => some (k, c)
    | some p => if c > p.2 then some (k, c) else some p) none).map (·.1)

/-- The record returned by `get_query_stats`. -/
structure QueryStats where
  total_queries : Nat
  successful_queries : Nat
  failed_queries : Nat
  success_rate : ℚ
  avg_response_time_ms : ℚ
  min_response_time_ms : ℚ
  max_response_time_ms : ℚ
  most_used_top_k : Option Int
deriving DecidableEq, Repr

/-- The error raised by SQLite when `get_query_stats` is called with no
active filter: `where_sql` is then the empty string, and the second query
becomes `SELECT COUNT(*) as count FROM queries  AND success = 1`, which is
malformed SQL. -/
def sqlSyntaxError : String := "sqlite3.OperationalError: near AND: syntax error"

/-- `get_query_stats` (metrics.py lines 148-236).  The function builds
`where_sql` from the truthy filters and then runs several aggregates; all
but the first interpolate `f"... FROM queries WHERE-SQL AND success = ..."`,
so when no filter is active the hard-coded `AND` follows `FROM queries`
directly and SQLite raises a syntax error (modelled as `Except.error`).
With at least one active filter every query is well-formed and the result
record is computed over the filtered row set. -/
def get_query_stats (now : Nat) (user_id : Option String) (days : Option Int)
    (db : MetricsDB) : Except String QueryStats :=
  if userFilterActive user_id || daysFilterActive days then
    let rows := db.queries.filter (rowMatches now user_id days)
    let total := rows.length
    let succRows := rows.filter (·.success)
    let failRows := rows.filter (fun r => !r.success)
    let times := succRows.map (·.response_time_ms)
    Except.ok
      { total_queries := total
        successful_queries := succRows.length
        failed_queries := failRows.length
        success_rate :=
          pyRound2 (if total > 0 then (succRows.length : ℚ) / total * 100 else 0)
        avg_response_time_ms :=
          truthyRound (if times.isEmpty then none
            else some (times.sum / times.length))
        min_response_time_ms := truthyRound (listMin times)
        max_response_time_ms := truthyRound (listMax times)
        most_used_top_k := mostUsedTopK rows }
  else Except.error sqlSyntaxError

/-- The arguments of one `record_query` call (used to reason about
arbitrary call sequences against the store). -/
structure RecordQueryCall where
  now : Nat
  user_id : Option String
  question : String
  top_k : Int
  response_time_ms : ℚ
  success : Bool
  sources : List SourceDict
  error_message : Option String
deriving DecidableEq, Repr

/-- Replay a sequence of `record_query` calls against a store. -/
def applyCalls (calls : List RecordQueryCall) (db : MetricsDB) : MetricsDB :=
  calls.foldl (fun d c =>
    (record_query c.now c.user_id c.question c.top_k c.response_time_ms
      c.success c.sources c.error_message d).2) db

/-! ## Conversation history store (`src/api/history.py`)

The `conversations` table stores the provenance list serialized as JSON
text (`json.dumps(sources)` on write, `json.loads(text) if text else []`
on read).  The standard-library `json` module is embedded here as an
executable printer (`json_dumps`) and parser (`json_loads`) for the value
shape this module stores: a list of `SourceEntry` objects with key order
`source`, `page`, the Python default separators `", "` and `": "`, and
backslash escaping of `"` and `\` inside strings. -/

/-- One `(source, page)` provenance entry of a conversation's source list. -/
structure SourceEntry where
  source : String
  page : Int
deriving DecidableEq, Repr

/-- JSON string escaping of one character. -/
def escChar (c : Char) : List Char :=
  if c = '"' ∨ c = '\\' then ['\\', c] else [c]

/-- JSON string escaping of a whole string body. -/
def escape (s : String) : List Char := s.data.flatMap escChar

/-- The decimal digit character for `d < 10`. -/
def digitChar (d : Nat) : Char := Char.ofNat (48 + d)

/-- Decimal digits of `n`, most significant first, computed with
structural fuel so that it reduces in the kernel. -/
def natDigitsAux : Nat → Nat → List Char
  | 0, _ => []
  | fuel + 1, n =>
    if n < 10 then [digitChar n]
    else natDigitsAux fuel (n / 10) ++ [digitChar (n % 10)]

/-- Decimal rendering of a natural number (`"0"` for zero). -/
def natDigits (n : Nat) : List Char := natDigitsAux (n + 1) n

/-- Decimal rendering of an integer, as Python prints it. -/
def intChars (n : Int) : List Char :=
  if n < 0 then '-' :: natDigits (-n).toNat else natDigits n.toNat

/-- `json.dumps` of one provenance dict. -/
def dumpsEntry (e : SourceEntry) : List Char :=
  "\x7b\"source\": \"".data ++ escape e.source ++ "\", \"page\": ".data
    ++ intChars e.page ++ ['\x7d']

/-- The comma-separated body of the serialized array. -/
def dumpsBody : List SourceEntry → List Char
  | [] => []
  | e :: es => dumpsEntry e ++ es.flatMap (fun e2 => ',' :: ' ' :: dumpsEntry e2)

/-- `json.dumps(sources)`: the TEXT stored in the `sources` column. -/
def json_dumps (l : List SourceEntry) : String :=
  String.mk ('[' :: dumpsBody l ++ [']'])

/-- JSON string-literal parser: `acc` holds the characters read so far in
reverse; the flag records that the previous character was an escaping
backslash; an unescaped quote ends the literal. -/
def parseStringAux : Bool → List Char → List Char → Option (String × List Char)
  | _, _, [] => none
  | true, acc, c :: rest => parseStringAux false (c :: acc) rest
  | false, acc, c :: rest =>
    if c = '"' then some (String.mk acc.reverse, rest)
    else if c = '\\' then parseStringAux true acc rest
    else parseStringAux false (c :: acc) rest

/-- Parse a nonempty run of decimal digits. -/
def parseNatChars (l : List Char) : Option (Nat × List Char) :=
  let ds := l.takeWhile Char.isDigit
  if ds = [] then none
  else some (ds.foldl (fun a c => a * 10 + (c.toNat - 48)) 0,
    l.dropWhile Char.isDigit)

/-- Parse an optionally negated decimal integer. -/
def parseIntChars (l : List Char) : Option (Int × List Char) :=
  if l.head? = some '-' then
    (parseNatChars l.tail).map fun p => (-(p.1 : Int), p.2)
  else (parseNatChars l).map fun p => ((p.1 : Int), p.2)

/-- Consume an expected literal prefix. -/
def expectChars : List Char → List Char → Option (List Char)
  | [], l => some l
  | _ :: _, [] => none
  | p :: ps, c :: cs => if c = p then expectChars ps cs else none

/-- Parse one serialized provenance object. -/
def parseEntry (l : List Char) : Option (SourceEntry × List Char) :=
  (expectChars "\x7b\"source\": \"".data l).bind fun l1 =>
  (parseStringAux false [] l1).bind fun sp =>
  (expectChars ", \"page\": ".data sp.2).bind fun l2 =>
  (parseIntChars l2).bind fun ip =>
  (expectChars ['\x7d'] ip.2).map fun l3 =>
    ({ source := sp.1, page := ip.1 }, l3)

/-- Parse the remaining `", " entry`* `"]"` of a nonempty array; `acc`
holds the entries read so far in reverse. -/
def parseMore : Nat → List SourceEntry → List Char →
    Option (List SourceEntry × List Char)
  | 0, _, _ => none
  | _ + 1, acc, ']' :: rest => some (acc.reverse, rest)
  | fuel + 1, acc, ',' :: ' ' :: rest =>
    (parseEntry rest).bind fun p => parseMore fuel (p.1 :: acc) p.2
  | _, _, _ => none

/-- `json.loads` on the serialized source-list grammar; `none` models the
`json.JSONDecodeError` Python raises on text outside the grammar. -/
def json_loads (s : String) : Option (List SourceEntry) :=
  if s.data = ['[', ']'] then some []
  else if s.data.head? = some '[' then
    (parseEntry s.data.tail).bind fun p =>
    (parseMore (s.data.tail.length + 1) [p.1] p.2).bind fun q =>
    if q.2 = [] then some q.1 else none
  else none

/-- A row of the `conversations` table (see `init_history_db`). -/
structure ConvRow where
  id : Nat
  user_id : String
  question : String
  answer : String
  sources : String
  top_k : Int
  created_at : Nat
deriving DecidableEq, Repr

/-- The conversation-history SQLite database (`conversation_history.db`). -/
structure HistoryDB where
  conversations : List ConvRow
  next_id : Nat
deriving DecidableEq, Repr

/-- Fresh store right after `init_history_db` on a new file. -/
def initHistoryDB : HistoryDB := { conversations := [], next_id := 1 }

/-- `save_conversation` (history.py lines 55-76): inserts one row with the
source list serialized by `json.dumps` and returns its id. -/
def save_conversation (now : Nat) (user_id question answer : String)
    (sources : List SourceEntry) (top_k : Int) (db : HistoryDB) :
    Nat × HistoryDB :=
  let cid := db.next_id
  (cid,
    { conversations := db.conversations ++
        [{ id := cid, user_id := user_id, question := question
           answer := answer, sources := json_dumps sources, top_k := top_k
           created_at := now }]
      next_id := cid + 1 })

/-- One element of `get_conversation_history`'s result (the dict the
Python loop builds per row). -/
structure ConvOut where
  id : Nat
  question : String
  answer : String
  sources : List SourceEntry
  top_k : Int
  created_at : Nat
deriving DecidableEq, Repr

/-- One row of the result:
`json.loads(row["sources"]) if row["sources"] else []` — an empty TEXT is
falsy and yields `[]`; undecodable TEXT raises (`none`). -/
def convOut (r : ConvRow) : Option ConvOut :=
  if r.sources = "" then
    some { id := r.id, question := r.question, answer := r.answer
           sources := [], top_k := r.top_k, created_at := r.created_at }
  else
    (json_loads r.sources).map fun l =>
      { id := r.id, question := r.question, answer := r.answer
        sources := l, top_k := r.top_k, created_at := r.created_at }

/-- The Python `for row in rows` loop: first undecodable row aborts. -/
def mapConv : List ConvRow → Option (List ConvOut)
  | [] => some []
  | r :: rs => (convOut r).bind fun c => (mapConv rs).map fun cs => c :: cs

/-- `ORDER BY created_at ASC` (modelled as a stable sort on the insertion
order of the table). -/
def byCreated (a b : ConvRow) : Prop := a.created_at ≤ b.created_at

instance : DecidableRel byCreated := fun a b => Nat.decLe a.created_at b.created_at

instance : IsTotal ConvRow byCreated := ⟨fun a b => Nat.le_total a.created_at b.created_at⟩

instance : IsTrans ConvRow byCreated := ⟨fun _ _ _ => Nat.le_trans⟩

/-- `get_conversation_history` (history.py lines 79-110): selects the
user's rows in ascending creation-time order; the `LIMIT` clause is added
only for a truthy `limit` (`if limit:` skips both `None` and `0`), and
SQLite treats a negative `LIMIT` as unbounded. -/
def get_conversation_history (user_id : String) (limit : Option Int)
    (db : HistoryDB) : Option (List ConvOut) :=
  let rows := List.insertionSort byCreated
    (db.conversations.filter (fun r => decide (r.user_id = user_id)))
  let capped := match limit with
    | some n => if n ≠ 0 then (if 0 < n then rows.take n.toNat else rows)
        else rows
    | none => rows
  mapConv capped

/-- `delete_conversation_history` (history.py lines 113-124): removes the
user's rows and returns `cursor.rowcount`, the number removed. -/
def delete_conversation_history (user_id : String) (db : HistoryDB) :
    Nat × HistoryDB :=
  ((db.conversations.filter (fun r => decide (r.user_id = user_id))).length,
    { conversations :=
        db.conversations.filter (fun r => !decide (r.user_id = user_id))
      next_id := db.next_id })

/-- `get_conversation_count` (history.py lines 127-138). -/
def get_conversation_count (user_id : String) (db : HistoryDB) : Nat :=
  (db.conversations.filter (fun r => decide (r.user_id = user_id))).length

/-! ## Concrete stores used to instantiate theorems -/

/-- A one-entry provenance list. -/
def srcsExample : List SourceEntry := [{ source := "a.pdf", page := 1 }]

/-- A history store holding one conversation of user `"u"`. -/
def histDb1 : HistoryDB :=
  (save_conversation 5 "u" "q" "a" srcsExample 4 initHistoryDB).2

/-- The result row `get_conversation_history "u"` yields on `histDb1`. -/
def convOut1 : ConvOut :=
  { id := 1, question := "q", answer := "a", sources := srcsExample
    top_k := 4, created_at := 5 }

/-- A store holding one failed query recorded with `error_message=None`. -/
def dbFailedNoMsg : MetricsDB :=
  (record_query 0 none "boom" 4 10 false [] none initMetricsDB).2

/-- A disciplined call sequence: its only failed call carries a message. -/
def c3Calls : List RecordQueryCall :=
  [{ now := 0, user_id := some "u", question := "q", top_k := 4
     response_time_ms := 10, success := false, sources := []
     error_message := some "err" }]

/-- The single `QueryRow` that replaying `c3Calls` produces. -/
def c3Row : QueryRow :=
  { id := 1, user_id := some "u", question := "q", top_k := 4
    response_time_ms := 10, success := false, error_message := some "err"
    sources_count := 0, created_at := 0 }

/-- A store holding one successful query by user `"a"`. -/
def dbOneSuccess : MetricsDB :=
  (record_query 0 (some "a") "q" 4 10 true [] none initMetricsDB).2

/-- The statistics record `get_query_stats` returns on `dbOneSuccess`
when filtered by user `"a"`. -/
def statsOneSuccess : QueryStats :=
  { total_queries := 1, successful_queries := 1, failed_queries := 0
    success_rate := 100, avg_response_time_ms := 10
    min_response_time_ms := 10, max_response_time_ms := 10
    most_used_top_k := some 4 }

/-! ## CSV export (`src/api/main.py`)

`_serialize_to_csv` writes the metric record dicts with `csv.DictWriter`:
a header row of the fixed fieldnames, then one row per record, each
terminated by the csv module's default `"\r\n"`, with `None` (and absent
keys) rendered as the empty field and QUOTE_MINIMAL quoting. -/

/-- A value of a raw metric record dict: an integer, a string, or Python
`None`. -/
inductive Cell where
  | null : Cell
  | int (n : Int) : Cell
  | str (s : String) : Cell
deriving DecidableEq, Repr

/-- How the csv writer stringifies a value: `None` becomes the empty
string, other values `str(value)`. -/
def cellStr : Cell → String
  | .null => ""
  | .int n => toString n
  | .str s => s

/-- QUOTE_MINIMAL: a field is quoted only when it contains the delimiter,
the quote character or a line break; inner quotes are doubled. -/
def csvCell (v : Cell) : String :=
  let s := cellStr v
  if s.data.any (fun c => c = ',' || c = '"' || c = '\n' || c = '\r') then
    "\"" ++ String.mk (s.data.flatMap fun c =>
      if c = '"' then ['"', '"'] else [c]) ++ "\""
  else s

/-- `record.get(field)`: `None` when the key is absent. -/
def dictGet (r : List (String × Cell)) (k : String) : Cell :=
  match r.find? (fun p => p.1 == k) with
  | some p => p.2
  | none => Cell.null

/-- One `writer.writerow` line (without the terminator). -/
def csvRow (fieldnames : List String) (r : List (String × Cell)) : String :=
  String.intercalate "," (fieldnames.map fun f => csvCell (dictGet r f))

/-- The `writer.writeheader()` line (without the terminator). -/
def headerLine (fieldnames : List String) : String :=
  String.intercalate "," (fieldnames.map fun f => csvCell (Cell.str f))

/-- `_serialize_to_csv` (main.py lines 46-53): the `StringIO` accumulates
the header line and then each record's line, each followed by `"\r\n"`. -/
def serialize_to_csv (records : List (List (String × Cell)))
    (fieldnames : List String) : String :=
  (records.map (csvRow fieldnames)).foldl
    (fun acc line => acc ++ line ++ "\r\n")
    (headerLine fieldnames ++ "\r\n")

/-- The fixed fieldnames of the `data_type = "errors"` export branch of
`export_metrics_data` (main.py lines 320-330). -/
def errorsFieldnames : List String :=
  ["id", "user_id", "endpoint", "error_type", "error_message",
   "status_code", "created_at"]

/-- An optional string marshalled into a dict value. -/
def optStrCell : Option String → Cell
  | some s => Cell.str s
  | none => Cell.null

/-- An optional integer marshalled into a dict value. -/
def optIntCell : Option Int → Cell
  | some n => Cell.int n
  | none => Cell.null

/-- The dict one `ErrorRow` is marshalled into (`sqlite3.Row` → dict with
the `errors` table columns). -/
def errorRowDict (e : ErrorRow) : List (String × Cell) :=
  [("id", Cell.int e.id), ("user_id", optStrCell e.user_id),
   ("endpoint", Cell.str e.endpoint), ("error_type", Cell.str e.error_type),
   ("error_message", Cell.str e.error_message),
   ("status_code", optIntCell e.status_code),
   ("created_at", Cell.int e.created_at)]

/-- Modelled from the spec: `get_errors_raw` is imported by the API layer
and exercised by the tests, but its definition is not among the provided
sources.  Per the spec it returns the raw ErrorRecord rows whose creation
timestamp lies within the last `days` window, all time when the filter is
absent, with the truthiness convention of the sibling aggregation
functions of `metrics.py`. -/
def get_errors_raw (now : Nat) (days : Option Int) (db : MetricsDB) :
    List (List (String × Cell)) :=
  (db.errors.filter fun e =>
    !daysFilterActive days || withinDays now (days.getD 0) e.created_at).map
    errorRowDict

/-- The `data_type="errors"`, `export_format="csv"` branch of
`export_metrics_data` (main.py): fetch the raw error rows for the window
and serialize them with the fixed error fieldnames. -/
def export_errors_csv (now : Nat) (days : Int) (db : MetricsDB) : String :=
  serialize_to_csv (get_errors_raw now (some days) db) errorsFieldnames

/-! ## Round-trip lemmas for the JSON printer and parser -/

theorem expectChars_append (pre rest : List Char) :
    expectChars pre (pre ++ rest) = some rest := by
  induction pre with
  | nil => rfl
  | cons p ps ih => simp [expectChars, ih]

theorem parseStringAux_esc (cs : List Char) (acc rest : List Char) :
    parseStringAux false acc (cs.flatMap escChar ++ '"' :: rest)
      = some (String.mk (acc.reverse ++ cs), rest) := by
  induction cs generalizing acc with
  | nil => simp [parseStringAux]
  | cons c cs ih =>
    by_cases h : c = '"' ∨ c = '\\'
    · have hesc : escChar c = ['\\', c] := by simp [escChar, h]
      have hbq : ¬ ('\\' : Char) = '"' := by decide
      simp only [List.flatMap_cons, hesc, List.cons_append, List.nil_append,
        parseStringAux, hbq, if_false, ite_false, if_pos rfl]
      rw [ih]
      simp
    · have hesc : escChar c = [c] := by simp [escChar, h]
      push_neg at h
      simp only [List.flatMap_cons, hesc, List.cons_append, List.nil_append,
        parseStringAux, h.1, h.2, if_false, ite_false]
      rw [ih]
      simp

theorem stringMk_data (s : String) : String.mk s.data = s := rfl

theorem digitChar_isDigit : ∀ d, d < 10 → (digitChar d).isDigit = true := by
  decide

theorem digitChar_val : ∀ d, d < 10 → (digitChar d).toNat - 48 = d := by
  decide

theorem natDigitsAux_all_digits (fuel : Nat) :
    ∀ n, n < fuel → ∀ c ∈ natDigitsAux fuel n, c.isDigit = true := by
  induction fuel with
  | zero => intro n hn; omega
  | succ fuel ih =>
    intro n _ c hc
    rw [natDigitsAux] at hc
    by_cases h10 : n < 10
    · rw [if_pos h10] at hc
      simp only [List.mem_singleton] at hc
      exact hc ▸ digitChar_isDigit n h10
    · rw [if_neg h10] at hc
      rcases List.mem_append.1 hc with hc | hc
      · have hlt : n / 10 < fuel := by
          have := Nat.div_lt_self (by omega : 0 < n) (by omega : 1 < 10)
          omega
        exact ih (n / 10) hlt c hc
      · simp only [List.mem_singleton] at hc
        exact hc ▸ digitChar_isDigit (n % 10) (Nat.mod_lt n (by omega))

theorem natDigitsAux_ne_nil (fuel n : Nat) (h : n < fuel) :
    natDigitsAux fuel n ≠ [] := by
  cases fuel with
  | zero => omega
  | succ fuel =>
    rw [natDigitsAux]
    by_cases h10 : n < 10
    · simp [h10]
    · simp [h10]

theorem natDigitsAux_foldl (fuel : Nat) :
    ∀ n a, n < fuel →
      (natDigitsAux fuel n).foldl (fun a c => a * 10 + (c.toNat - 48)) a
        = a * 10 ^ (natDigitsAux fuel n).length + n := by
  induction fuel with
  | zero => intro n a hn; omega
  | succ fuel ih =>
    intro n a _
    rw [natDigitsAux]
    by_cases h10 : n < 10
    · rw [if_pos h10]
      simp [List.foldl_cons, digitChar_val n h10]
    · rw [if_neg h10]
      have hn0 : 0 < n := by omega
      have hlt : n / 10 < fuel := by
        have := Nat.div_lt_self hn0 (by omega : 1 < 10)
        omega
      rw [List.foldl_append, ih (n / 10) a hlt]
      simp only [List.foldl_cons, List.foldl_nil, List.length_append,
        List.length_singleton]
      rw [digitChar_val (n % 10) (Nat.mod_lt n (by omega))]
      have hdm : n / 10 * 10 + n % 10 = n := by omega
      rw [pow_succ]
      calc (a * 10 ^ (natDigitsAux fuel (n / 10)).length + n / 10) * 10 + n % 10
      _ = a * (10 ^ (natDigitsAux fuel (n / 10)).length * 10)
            + (n / 10 * 10 + n % 10) := by ring
      _ = a * (10 ^ (natDigitsAux fuel (n / 10)).length * 10) + n := by
            rw [hdm]

theorem natDigits_all_digits (n : Nat) :
    ∀ c ∈ natDigits n, c.isDigit = true :=
  natDigitsAux_all_digits (n + 1) n (Nat.lt_succ_self n)

theorem natDigits_ne_nil (n : Nat) : natDigits n ≠ [] :=
  natDigitsAux_ne_nil (n + 1) n (Nat.lt_succ_self n)

theorem natDigits_foldl (n : Nat) :
    (natDigits n).foldl (fun a c => a * 10 + (c.toNat - 48)) 0 = n := by
  have := natDigitsAux_foldl (n + 1) n 0 (Nat.lt_succ_self n)
  simpa [natDigits] using this

theorem takeWhile_append_of (p : Char → Bool) (xs rest : List Char)
    (h1 : ∀ c ∈ xs, p c = true)
    (h2 : ∀ c, rest.head? = some c → p c = false) :
    (xs ++ rest).takeWhile p = xs ∧ (xs ++ rest).dropWhile p = rest := by
  induction xs with
  | nil =>
    cases rest with
    | nil => simp
    | cons r rs =>
      have := h2 r rfl
      simp [List.takeWhile_cons, List.dropWhile_cons, this]
  | cons x xs ih =>
    have hx : p x = true := h1 x (List.mem_cons_self _ _)
    have := ih (fun c hc => h1 c (List.mem_cons_of_mem _ hc))
    simp [List.takeWhile_cons, List.dropWhile_cons, hx, this.1, this.2]

theorem parseNatChars_natDigits (n : Nat) (rest : List Char)
    (h2 : ∀ c, rest.head? = some c → c.isDigit = false) :
    parseNatChars (natDigits n ++ rest) = some (n, rest) := by
  obtain ⟨htake, hdrop⟩ :=
    takeWhile_append_of Char.isDigit (natDigits n) rest
      (natDigits_all_digits n) h2
  rw [parseNatChars]
  simp only [htake, hdrop]
  rw [if_neg (natDigits_ne_nil n)]
  rw [natDigits_foldl]

theorem head?_append_of_ne_nil {xs : List Char} (rest : List Char)
    (h : xs ≠ []) : (xs ++ rest).head? = xs.head? := by
  cases xs with
  | nil => exact absurd rfl h
  | cons x t => rfl

theorem parseIntChars_intChars (n : Int) (rest : List Char)
    (h2 : ∀ c, rest.head? = some c → c.isDigit = false) :
    parseIntChars (intChars n ++ rest) = some (n, rest) := by
  rw [intChars, parseIntChars]
  by_cases hneg : n < 0
  · rw [if_pos hneg]
    simp only [List.cons_append, List.head?_cons, List.tail_cons, if_pos rfl,
      Option.some.injEq]
    rw [parseNatChars_natDigits _ rest h2]
    have hv : ((-n).toNat : Int) = -n := Int.toNat_of_nonneg (by omega)
    simp [hv]
  · rw [if_neg hneg]
    have hne := natDigits_ne_nil n.toNat
    have hhead : (natDigits n.toNat ++ rest).head? = (natDigits n.toNat).head? :=
      head?_append_of_ne_nil rest hne
    have hnotdash : ¬ (natDigits n.toNat ++ rest).head? = some '-' := by
      rw [hhead]
      cases hd : (natDigits n.toNat).head? with
      | none => simp
      | some c =>
        have hc : c ∈ natDigits n.toNat := List.mem_of_mem_head? hd
        have := natDigits_all_digits n.toNat c hc
        simp only [Option.some.injEq]
        intro hcd
        rw [hcd] at this
        exact absurd this (by decide)
    rw [if_neg hnotdash]
    rw [parseNatChars_natDigits _ rest h2]
    have hv : (n.toNat : Int) = n := Int.toNat_of_nonneg (by omega)
    simp [hv]

theorem closeBrace_not_digit :
    ∀ c : Char, ('\x7d' :: ([] : List Char)).head? = some c → c.isDigit = false := by
  intro c hc
  simp only [List.head?_cons, Option.some.injEq] at hc
  rw [← hc]
  decide

theorem parseEntry_dumpsEntry (e : SourceEntry) (tail : List Char) :
    parseEntry (dumpsEntry e ++ tail) = some (e, tail) := by
  have hbrace : ∀ c : Char, ('\x7d' :: tail).head? = some c →
      c.isDigit = false := by
    intro c hc
    simp only [List.head?_cons, Option.some.injEq] at hc
    rw [← hc]
    decide
  simp only [parseEntry, dumpsEntry, escape, List.append_assoc,
    List.cons_append, List.singleton_append, List.nil_append]
  simp [expectChars, parseStringAux_esc, stringMk_data,
    parseIntChars_intChars e.page ('\x7d' :: tail) hbrace]

theorem parseMore_sep (es : List SourceEntry) :
    ∀ (fuel : Nat) (acc : List SourceEntry) (rest : List Char),
      es.length < fuel →
      parseMore fuel acc
          ((es.flatMap fun e2 => ',' :: ' ' :: dumpsEntry e2) ++ ']' :: rest)
        = some (acc.reverse ++ es, rest) := by
  induction es with
  | nil =>
    intro fuel acc rest hf
    cases fuel with
    | zero => omega
    | succ fuel => simp [parseMore]
  | cons e es ih =>
    intro fuel acc rest hf
    cases fuel with
    | zero => omega
    | succ fuel =>
      simp only [List.flatMap_cons, List.cons_append, List.append_assoc]
      rw [parseMore]
      rw [parseEntry_dumpsEntry]
      simp only [Option.some_bind]
      rw [ih fuel (e :: acc) rest (by simpa using Nat.lt_of_succ_lt_succ hf)]
      simp

theorem sep_length_le (es : List SourceEntry) :
    es.length ≤ (es.flatMap fun e2 => ',' :: ' ' :: dumpsEntry e2).length := by
  induction es with
  | nil => simp
  | cons e es ih =>
    simp only [List.flatMap_cons, List.length_append, List.length_cons]
    omega

/-- The serialize-then-deserialize round trip of the source list. -/
theorem json_loads_dumps (l : List SourceEntry) :
    json_loads (json_dumps l) = some l := by
  cases l with
  | nil => rfl
  | cons e es =>
    have hhead : ∃ cs, dumpsEntry e = '\x7b' :: cs := ⟨_, rfl⟩
    obtain ⟨cs, hcs⟩ := hhead
    have hdata : (json_dumps (e :: es)).data
        = '[' :: (dumpsEntry e
            ++ ((es.flatMap fun e2 => ',' :: ' ' :: dumpsEntry e2)
              ++ [']'])) := by
      simp [json_dumps, dumpsBody]
    rw [json_loads, hdata]
    have hne : ¬ ('[' :: (dumpsEntry e
        ++ ((es.flatMap fun e2 => ',' :: ' ' :: dumpsEntry e2) ++ [']'])))
        = ['[', ']'] := by
      rw [hcs]
      simp
    rw [if_neg hne]
    simp only [List.head?_cons, if_pos rfl, List.tail_cons]
    rw [show (es.flatMap fun e2 => ',' :: ' ' :: dumpsEntry e2) ++ [']']
        = (es.flatMap fun e2 => ',' :: ' ' :: dumpsEntry e2) ++ ']' :: []
      from rfl]
    rw [parseEntry_dumpsEntry]
    simp only [Option.some_bind]
    have hfuel : es.length
        < (dumpsEntry e
            ++ ((es.flatMap fun e2 => ',' :: ' ' :: dumpsEntry e2)
              ++ ']' :: [])).length + 1 := by
      have := sep_length_le es
      simp only [List.length_append, List.length_cons, List.length_nil]
      omega
    rw [parseMore_sep es _ [e] [] hfuel]
    simp

theorem json_dumps_ne_empty (l : List SourceEntry) : json_dumps l ≠ "" := by
  intro h
  have : (json_dumps l).data = ("" : String).data := by rw [h]
  simp [json_dumps] at this

/-! ## Lemmas about the row-to-dict conversion loop -/

theorem convOut_created_at {r : ConvRow} {c : ConvOut}
    (h : convOut r = some c) : c.created_at = r.created_at := by
  rw [convOut] at h
  by_cases he : r.sources = ""
  · rw [if_pos he] at h
    cases h
    rfl
  · rw [if_neg he] at h
    cases hj : json_loads r.sources with
    | none => rw [hj] at h; cases h
    | some l =>
      rw [hj] at h
      simp only [Option.map_some'] at h
      cases h
      rfl

theorem convOut_saved (now : Nat) (user_id question answer : String)
    (sources : List SourceEntry) (top_k : Int) (cid : Nat) :
    convOut { id := cid, user_id := user_id, question := question
              answer := answer, sources := json_dumps sources
              top_k := top_k, created_at := now }
      = some { id := cid, question := question, answer := answer
               sources := sources, top_k := top_k, created_at := now } := by
  rw [convOut]
  rw [if_neg (json_dumps_ne_empty sources)]
  rw [json_loads_dumps]
  rfl

theorem mapConv_length {rs : List ConvRow} {cs : List ConvOut}
    (h : mapConv rs = some cs) : cs.length = rs.length := by
  induction rs generalizing cs with
  | nil => rw [mapConv] at h; cases h; rfl
  | cons r rs ih =>
    rw [mapConv] at h
    cases hr : convOut r with
    | none => rw [hr] at h; cases h
    | some c =>
      rw [hr] at h
      simp only [Option.some_bind] at h
      cases hm : mapConv rs with
      | none => rw [hm] at h; cases h
      | some cs' =>
        rw [hm] at h
        simp only [Option.map_some'] at h
        cases h
        simp [ih hm]

theorem mapConv_isSome_of {rs : List ConvRow} {cs : List ConvOut}
    (h : mapConv rs = some cs) : ∀ r ∈ rs, (convOut r).isSome := by
  induction rs generalizing cs with
  | nil => intro r hr; cases hr
  | cons r0 rs ih =>
    rw [mapConv] at h
    cases hr : convOut r0 with
    | none => rw [hr] at h; cases h
    | some c =>
      rw [hr] at h
      simp only [Option.some_bind] at h
      cases hm : mapConv rs with
      | none => rw [hm] at h; cases h
      | some cs' =>
        intro r hrm
        rcases List.mem_cons.1 hrm with rfl | hrm
        · simp [hr]
        · exact ih hm r hrm

theorem mapConv_of_forall {rs : List ConvRow}
    (h : ∀ r ∈ rs, (convOut r).isSome) : ∃ cs, mapConv rs = some cs := by
  induction rs with
  | nil => exact ⟨[], rfl⟩
  | cons r rs ih =>
    obtain ⟨c, hc⟩ := Option.isSome_iff_exists.1 (h r (List.mem_cons_self _ _))
    obtain ⟨cs, hcs⟩ := ih fun r' hr' => h r' (List.mem_cons_of_mem _ hr')
    exact ⟨c :: cs, by rw [mapConv, hc, hcs]; rfl⟩

theorem mapConv_mem {rs : List ConvRow} {cs : List ConvOut} {r : ConvRow}
    {c : ConvOut} (h : mapConv rs = some cs) (hr : r ∈ rs)
    (hc : convOut r = some c) : c ∈ cs := by
  induction rs generalizing cs with
  | nil => cases hr
  | cons r0 rs ih =>
    rw [mapConv] at h
    cases hr0 : convOut r0 with
    | none => rw [hr0] at h; cases h
    | some c0 =>
      rw [hr0] at h
      simp only [Option.some_bind] at h
      cases hm : mapConv rs with
      | none => rw [hm] at h; cases h
      | some cs' =>
        rw [hm] at h
        simp only [Option.map_some'] at h
        cases h
        rcases List.mem_cons.1 hr with rfl | hr
        · rw [hr0] at hc
          cases hc
          exact List.mem_cons_self _ _
        · exact List.mem_cons_of_mem _ (ih hm hr)

theorem mapConv_take {rs : List ConvRow} {cs : List ConvOut}
    (h : mapConv rs = some cs) (m : Nat) :
    mapConv (rs.take m) = some (cs.take m) := by
  induction rs generalizing cs m with
  | nil => rw [mapConv] at h; cases h; simp [mapConv]
  | cons r rs ih =>
    rw [mapConv] at h
    cases hr : convOut r with
    | none => rw [hr] at h; cases h
    | some c =>
      rw [hr] at h
      simp only [Option.some_bind] at h
      cases hm : mapConv rs with
      | none => rw [hm] at h; cases h
      | some cs' =>
        rw [hm] at h
        simp only [Option.map_some'] at h
        cases h
        cases m with
        | zero => simp [mapConv]
        | succ m =>
          simp only [List.take_succ_cons]
          rw [mapConv, hr]
          simp only [Option.some_bind]
          rw [ih hm m]
          rfl

theorem mapConv_exists_pre {rs : List ConvRow} {cs : List ConvOut}
    (h : mapConv rs = some cs) : ∀ c ∈ cs, ∃ r ∈ rs, convOut r = some c := by
  induction rs generalizing cs with
  | nil =>
    rw [mapConv] at h
    cases h
    intro c hc
    cases hc
  | cons r0 rs ih =>
    rw [mapConv] at h
    cases hr0 : convOut r0 with
    | none => rw [hr0] at h; cases h
    | some c0 =>
      rw [hr0] at h
      simp only [Option.some_bind] at h
      cases hm : mapConv rs with
      | none => rw [hm] at h; cases h
      | some cs' =>
        rw [hm] at h
        simp only [Option.map_some'] at h
        cases h
        intro c hc
        rcases List.mem_cons.1 hc with rfl | hc
        · exact ⟨r0, List.mem_cons_self _ _, hr0⟩
        · obtain ⟨r', hr', hcr'⟩ := ih hm c hc
          exact ⟨r', List.mem_cons_of_mem _ hr', hcr'⟩

theorem mapConv_pairwise {rs : List ConvRow} {cs : List ConvOut}
    (h : mapConv rs = some cs)
    (hp : List.Pairwise byCreated rs) :
    List.Pairwise (fun a b : ConvOut => a.created_at ≤ b.created_at) cs := by
  induction rs generalizing cs with
  | nil => rw [mapConv] at h; cases h; exact List.Pairwise.nil
  | cons r rs ih =>
    rw [mapConv] at h
    cases hr : convOut r with
    | none => rw [hr] at h; cases h
    | some c =>
      rw [hr] at h
      simp only [Option.some_bind] at h
      cases hm : mapConv rs with
      | none => rw [hm] at h; cases h
      | some cs' =>
        rw [hm] at h
        simp only [Option.map_some'] at h
        cases h
        rcases List.pairwise_cons.1 hp with ⟨hhead, htail⟩
        refine List.pairwise_cons.2 ⟨?_, ih hm htail⟩
        intro c' hc'
        obtain ⟨r', hr', hcr'⟩ := mapConv_exists_pre hm c' hc'
        have h1 : c.created_at = r.created_at := convOut_created_at hr
        have h2 : c'.created_at = r'.created_at := convOut_created_at hcr'
        rw [h1, h2]
        exact hhead r' hr'

/-! ## History claim theorems -/

/-- C7.  `delete_conversation_history` returns exactly the number of the
user's stored rows — also `0` for a user with none, without error — and a
subsequent `get_conversation_history` for that user yields the empty
list. -/
theorem C7_delete_returns_count_then_empty (db : HistoryDB) (u : String) :
    (delete_conversation_history u db).1 = get_conversation_count u db
    ∧ get_conversation_history u none (delete_conversation_history u db).2
        = some [] := by
  refine ⟨rfl, ?_⟩
  have hfil : (delete_conversation_history u db).2.conversations.filter
      (fun r => decide (r.user_id = u)) = [] := by
    simp only [delete_conversation_history, List.filter_filter]
    have : ∀ r : ConvRow,
        (decide (r.user_id = u) && !decide (r.user_id = u)) = false := by
      intro r
      cases decide (r.user_id = u) <;> rfl
    calc db.conversations.filter
          (fun r => decide (r.user_id = u) && !decide (r.user_id = u))
        = db.conversations.filter (fun _ => false) := by
          exact List.filter_congr fun r _ => this r
      _ = [] := List.filter_false _
  rw [get_conversation_history, hfil]
  rfl

/-- C9.  Whenever `get_conversation_history` (no limit) returns a list,
`get_conversation_count` for the same user equals its length — both are
the number of the user's rows. -/
theorem C9_count_equals_history_length (db : HistoryDB) (u : String)
    (l : List ConvOut) (h : get_conversation_history u none db = some l) :
    get_conversation_count u db = l.length := by
  have h' : mapConv (List.insertionSort byCreated
      (db.conversations.filter (fun r => decide (r.user_id = u)))) = some l := by
    simpa [get_conversation_history] using h
  have hlen := mapConv_length h'
  rw [List.length_insertionSort] at hlen
  rw [get_conversation_count, ← hlen]

/-- C9 witness: the theorem applied to a store with one conversation. -/
theorem C9_count_witness :
    get_conversation_count "u" histDb1 = [convOut1].length :=
  C9_count_equals_history_length histDb1 "u" [convOut1] (by decide)

/-- C4 counterexample.  The claim says a given `limit` returns the first
`limit` rows in ascending order; with `limit = 0` the first `0` rows are
`[]`, but `if limit:` treats `0` as absent, so the code returns the whole
history (here one row) instead. -/
theorem C4_counterexample_limit_zero :
    get_conversation_count "u" histDb1 = 1
    ∧ get_conversation_history "u" (some 0) histDb1
        = get_conversation_history "u" none histDb1
    ∧ ¬ get_conversation_history "u" (some 0) histDb1 = some [] := by
  decide

/-- C4 as amended: the result is the user's rows oldest-first (ascending
creation time); a POSITIVE `limit` returns the first `limit` rows of that
ascending order (the oldest turns); `limit = 0` is falsy and a negative
`LIMIT` is unbounded in SQLite, so both return the whole history. -/
theorem C4_history_sorted_and_limited (db : HistoryDB) (u : String)
    (l : List ConvOut) (h : get_conversation_history u none db = some l) :
    List.Pairwise (fun a b : ConvOut => a.created_at ≤ b.created_at) l
    ∧ ∀ k : Int, get_conversation_history u (some k) db
        = some (if 0 < k then l.take k.toNat else l) := by
  have h' : mapConv (List.insertionSort byCreated
      (db.conversations.filter (fun r => decide (r.user_id = u)))) = some l := by
    simpa [get_conversation_history] using h
  constructor
  · exact mapConv_pairwise h' (List.sorted_insertionSort byCreated _)
  · intro k
    rw [get_conversation_history]
    by_cases hk : 0 < k
    · have hk0 : k ≠ 0 := by omega
      simp only [hk0, ne_eq, not_false_eq_true, if_true, hk, if_pos]
      exact mapConv_take h' k.toNat
    · rw [if_neg hk]
      by_cases hk0 : k = 0
      · simp only [hk0, ne_eq, not_true_eq_false, if_false, ite_false]
        exact h'
      · simp only [hk0, ne_eq, not_false_eq_true, if_true, hk, if_false,
          ite_false]
        exact h'

/-- C4 amended-claim witness on the one-conversation store. -/
theorem C4_history_witness :
    List.Pairwise (fun a b : ConvOut => a.created_at ≤ b.created_at) [convOut1]
    ∧ ∀ k : Int, get_conversation_history "u" (some k) histDb1
        = some (if 0 < k then [convOut1].take k.toNat else [convOut1]) :=
  C4_history_sorted_and_limited histDb1 "u" [convOut1] (by decide)

/-- C6.  Saving a conversation and reading the user's history back yields,
for the saved record (identified by the returned id), a deserialized
source list equal to the original element-for-element and in order:
`json.loads` inverts `json.dumps` on every provenance list. -/
theorem C6_sources_round_trip (db : HistoryDB) (now : Nat)
    (u q a : String) (srcs : List SourceEntry) (k : Int) (l₀ : List ConvOut)
    (h : get_conversation_history u none db = some l₀) :
    ∃ l, get_conversation_history u none
          (save_conversation now u q a srcs k db).2 = some l
      ∧ ∃ c ∈ l, c.id = (save_conversation now u q a srcs k db).1
          ∧ c.sources = srcs ∧ c.question = q ∧ c.answer = a := by
  have h' : mapConv (List.insertionSort byCreated
      (db.conversations.filter (fun r => decide (r.user_id = u)))) = some l₀ := by
    simpa [get_conversation_history] using h
  set newRow : ConvRow :=
    { id := db.next_id, user_id := u, question := q, answer := a
      sources := json_dumps srcs, top_k := k, created_at := now } with hnew
  have hfil : ((db.conversations ++ [newRow]).filter
        (fun r => decide (r.user_id = u)))
      = db.conversations.filter (fun r => decide (r.user_id = u))
        ++ [newRow] := by
    rw [List.filter_append]
    simp [hnew]
  have hforall : ∀ r ∈ List.insertionSort byCreated
      ((db.conversations ++ [newRow]).filter (fun r => decide (r.user_id = u))),
      (convOut r).isSome := by
    intro r hr
    rw [(List.perm_insertionSort byCreated _).mem_iff, hfil,
      List.mem_append] at hr
    rcases hr with hr | hr
    · exact mapConv_isSome_of h' r
        ((List.perm_insertionSort byCreated _).mem_iff.2 hr)
    · simp only [List.mem_singleton] at hr
      subst hr
      rw [convOut_saved]
      rfl
  obtain ⟨cs, hcs⟩ := mapConv_of_forall hforall
  have hmem : newRow ∈ List.insertionSort byCreated
      ((db.conversations ++ [newRow]).filter (fun r => decide (r.user_id = u))) := by
    rw [(List.perm_insertionSort byCreated _).mem_iff, hfil, List.mem_append]
    exact Or.inr (List.mem_singleton.2 rfl)
  have hout := mapConv_mem hcs hmem (convOut_saved now u q a srcs k db.next_id)
  refine ⟨cs, ?_, ?_⟩
  · simpa [get_conversation_history, save_conversation] using hcs
  · exact ⟨_, hout, rfl, rfl, rfl, rfl⟩

/-- C6 witness: saving onto the empty store and reading back. -/
theorem C6_round_trip_witness :
    ∃ l, get_conversation_history "u" none
          (save_conversation 5 "u" "q" "a" srcsExample 4 initHistoryDB).2
        = some l
      ∧ ∃ c ∈ l,
          c.id = (save_conversation 5 "u" "q" "a" srcsExample 4 initHistoryDB).1
          ∧ c.sources = srcsExample ∧ c.question = "q" ∧ c.answer = "a" :=
  C6_sources_round_trip initHistoryDB 5 "u" "q" "a" srcsExample 4 [] (by decide)

/-! ## CSV serialization lemmas and the export claim -/

theorem string_foldl_append (ls : List String) :
    ∀ init : String,
      ls.foldl (fun r s => r ++ s) init = init ++ ls.foldl (fun r s => r ++ s) "" := by
  induction ls with
  | nil => intro init; simp [String.append_empty]
  | cons x ls ih =>
    intro init
    simp only [List.foldl_cons]
    rw [ih (init ++ x), ih ("" ++ x)]
    rw [show ("" ++ x : String) = x from rfl, String.append_assoc]

theorem string_join_cons (a : String) (as : List String) :
    String.join (a :: as) = a ++ String.join as := by
  show (a :: as).foldl (fun r s => r ++ s) "" = a ++ as.foldl (fun r s => r ++ s) ""
  simp only [List.foldl_cons]
  rw [show ("" ++ a : String) = a from rfl, string_foldl_append]

theorem foldl_lines_eq_join (lines : List String) :
    ∀ init : String,
      lines.foldl (fun acc line => acc ++ line ++ "\r\n") init
        = init ++ String.join (lines.map (fun line => line ++ "\r\n")) := by
  induction lines with
  | nil => intro init; simp [String.join, String.append_empty]
  | cons l ls ih =>
    intro init
    simp only [List.foldl_cons, List.map_cons]
    rw [ih, string_join_cons]
    simp [String.append_assoc]

/-- C8.  Exporting errors as CSV yields the header line — exactly the
fixed error fieldnames, comma-joined, in the declared order — followed by
one `"\r\n"`-terminated data row per matching ErrorRecord, and an absent
(`None`) `user_id` or `status_code` renders as the empty field. -/
theorem C8_errors_csv_export (now : Nat) (days : Int) (db : MetricsDB) :
    export_errors_csv now days db
      = headerLine errorsFieldnames ++ "\r\n"
        ++ String.join (((get_errors_raw now (some days) db).map
            (csvRow errorsFieldnames)).map (fun line => line ++ "\r\n"))
    ∧ headerLine errorsFieldnames
        = "id,user_id,endpoint,error_type,error_message,status_code,created_at"
    ∧ ((get_errors_raw now (some days) db).map (csvRow errorsFieldnames)).length
        = (db.errors.filter fun e =>
            !daysFilterActive (some days)
              || withinDays now days e.created_at).length
    ∧ ∀ e : ErrorRow,
        (csvCell (dictGet (errorRowDict e) "user_id")
          = match e.user_id with
            | some s => csvCell (Cell.str s)
            | none => "")
        ∧ (csvCell (dictGet (errorRowDict e) "status_code")
            = match e.status_code with
              | some n => csvCell (Cell.int n)
              | none => "") := by
  refine ⟨?_, by decide, ?_, ?_⟩
  · rw [export_errors_csv, serialize_to_csv, foldl_lines_eq_join]
  · simp [get_errors_raw]
  · intro e
    obtain ⟨eid, uid, ep, et, em, sc, ca⟩ := e
    constructor
    · cases uid <;> rfl
    · cases sc <;> rfl

/-! ## Basic lemmas about `record_query` -/

theorem record_query_queries (now : Nat) (u : Option String) (q : String)
    (k : Int) (t : ℚ) (s : Bool) (srcs : List SourceDict)
    (em : Option String) (db : MetricsDB) :
    (record_query now u q k t s srcs em db).2.queries
      = db.queries ++
        [{ id := db.next_query_id, user_id := u, question := q, top_k := k
           response_time_ms := t, success := s, error_message := em
           sources_count := srcs.length, created_at := now }] := rfl

theorem pyRound2_zero : pyRound2 0 = 0 := by
  simp [pyRound2, roundHalfEven]

/-! ## Claim theorems for the metrics module -/

/-- C1.  The claim says `record_query` followed by `get_query_stats` with
no `user_id` and no `days` filter succeeds and reflects the new record.
The code instead raises `sqlite3.OperationalError`: with both filters
absent `where_sql` is empty while the bucket-count queries still
interpolate a hard-coded `AND success = ...` after it, producing the
malformed SQL `SELECT COUNT(*) as count FROM queries  AND success = 1`.
So `get_query_stats()` with no filter errors on every store, in
particular right after any `record_query`. -/
theorem C1_get_query_stats_unfiltered_raises (db : MetricsDB)
    (now now' : Nat) (u : Option String) (q : String) (k : Int) (t : ℚ)
    (s : Bool) (srcs : List SourceDict) (em : Option String) :
    get_query_stats now' none none
        ((record_query now u q k t s srcs em db).2)
      = Except.error sqlSyntaxError := rfl

/-- C2.  `record_query` appends exactly one `QueryRow` whose
`sources_count` is `len(sources)` and whose id is the returned id, and
exactly `len(sources)` `DocUsageRow`s, each carrying `query_id` equal to
the returned id, all in one atomic state transition (the prior contents
of both tables are preserved as a prefix). -/
theorem C2_record_query_atomic_insert (now : Nat) (u : Option String)
    (q : String) (k : Int) (t : ℚ) (s : Bool) (srcs : List SourceDict)
    (em : Option String) (db : MetricsDB) :
    (record_query now u q k t s srcs em db).2.queries
        = db.queries ++
          [{ id := (record_query now u q k t s srcs em db).1, user_id := u
             question := q, top_k := k, response_time_ms := t, success := s
             error_message := em, sources_count := srcs.length
             created_at := now }]
      ∧ (record_query now u q k t s srcs em db).2.document_usage.length
          = db.document_usage.length + srcs.length
      ∧ (record_query now u q k t s srcs em db).2.document_usage.take
            db.document_usage.length
          = db.document_usage
      ∧ ∀ d ∈ (record_query now u q k t s srcs em db).2.document_usage.drop
            db.document_usage.length,
          d.query_id = (record_query now u q k t s srcs em db).1 := by
  refine ⟨rfl, ?_, ?_, ?_⟩
  · simp [record_query]
  · simp [record_query]
  · intro d hd
    simp only [record_query, List.drop_left, List.mem_map] at hd
    obtain ⟨p, _, rfl⟩ := hd
    rfl

/-- C3 counterexample.  The claim states the invariant
`success=false → error_message present` for every store reachable by
`record_query` calls; but `record_query` performs no validation, so a
single call with `success=False, error_message=None` already produces a
violating `QueryRow`. -/
theorem C3_counterexample_failed_query_without_message :
    ¬ (∀ r ∈ dbFailedNoMsg.queries,
        r.success = false → r.error_message ≠ none) := by
  decide

/-- C3 as amended: the invariant holds for every store produced by a
sequence of `record_query` calls in which each call with `success=false`
supplies a non-null `error_message` (the recorder stores the given
message verbatim and never mutates existing rows). -/
theorem C3_invariant_under_disciplined_calls (calls : List RecordQueryCall)
    (h : ∀ c ∈ calls, c.success = false → c.error_message ≠ none) :
    ∀ r ∈ (applyCalls calls initMetricsDB).queries,
      r.success = false → r.error_message ≠ none := by
  suffices H : ∀ (cs : List RecordQueryCall) (db : MetricsDB),
      (∀ c ∈ cs, c.success = false → c.error_message ≠ none) →
      (∀ r ∈ db.queries, r.success = false → r.error_message ≠ none) →
      (∀ r ∈ (applyCalls cs db).queries,
        r.success = false → r.error_message ≠ none) by
    exact H calls initMetricsDB h (by simp [initMetricsDB])
  intro cs
  induction cs with
  | nil => intro db _ hdb; simpa [applyCalls] using hdb
  | cons c cs ih =>
    intro db hcs hdb
    have hstep : ∀ r ∈ (record_query c.now c.user_id c.question c.top_k
        c.response_time_ms c.success c.sources c.error_message db).2.queries,
        r.success = false → r.error_message ≠ none := by
      intro r hr
      rw [record_query_queries, List.mem_append] at hr
      rcases hr with hr | hr
      · exact hdb r hr
      · simp only [List.mem_singleton] at hr
        subst hr
        intro hs
        exact hcs c (List.mem_cons_self _ _) hs
    have : applyCalls (c :: cs) db
        = applyCalls cs (record_query c.now c.user_id c.question c.top_k
            c.response_time_ms c.success c.sources c.error_message db).2 := by
      simp [applyCalls]
    rw [this]
    exact ih _ (fun c' hc' => hcs c' (List.mem_cons_of_mem _ hc')) hstep

/-- C3 amended-claim witness: the theorem applied to the concrete call
sequence `c3Calls` and the concrete stored row `c3Row`. -/
theorem C3_invariant_witness : c3Row.error_message ≠ none :=
  C3_invariant_under_disciplined_calls c3Calls (by decide) c3Row
    (by decide) (by decide)

/-- C5.  Whenever `get_query_stats` returns a result, its `success_rate`
field is `0` when `total_queries = 0` and otherwise equals
`round(successful_queries / total_queries * 100, 2)`; the guard
`if total_queries > 0` means the division is never performed on a zero
denominator. -/
theorem C5_success_rate_formula (now : Nat) (u : Option String)
    (d : Option Int) (db : MetricsDB) (s : QueryStats)
    (h : get_query_stats now u d db = Except.ok s) :
    s.success_rate = if s.total_queries = 0 then 0
      else pyRound2 ((s.successful_queries : ℚ) / (s.total_queries : ℚ) * 100) := by
  unfold get_query_stats at h
  by_cases hf : (userFilterActive u || daysFilterActive d) = true
  · rw [if_pos hf] at h
    cases h
    by_cases h0 :
        (db.queries.filter (rowMatches now u d)).length = 0
    · simp only [h0, gt_iff_lt, Nat.lt_irrefl, if_false, if_pos]
      simpa using pyRound2_zero
    · have h0' : 0 < (db.queries.filter (rowMatches now u d)).length :=
        Nat.pos_of_ne_zero h0
      simp [h0, h0']
  · rw [if_neg hf] at h
    cases h

/-- C5 witness: the theorem applied to a store with one successful query,
filtered by its user. -/
theorem C5_success_rate_witness :
    statsOneSuccess.success_rate
      = if statsOneSuccess.total_queries = 0 then 0
        else pyRound2 ((statsOneSuccess.successful_queries : ℚ)
          / (statsOneSuccess.total_queries : ℚ) * 100) :=
  C5_success_rate_formula 0 (some "a") none dbOneSuccess statsOneSuccess
    (by
      norm_num [get_query_stats, dbOneSuccess, initMetricsDB, record_query,
        rowMatches, userFilterActive, daysFilterActive, mostUsedTopK,
        listMin, listMax, truthyRound, pyRound2, roundHalfEven,
        statsOneSuccess]
      intro h
      exact absurd h (by decide))

/-- C10.  A filter argument takes effect only when truthy: an empty-string
`user_id` behaves exactly like an absent user filter, and `days=0`
behaves exactly like an absent days window — including the failure mode
when no other filter is active. -/
theorem C10_falsy_filters_ignored (now : Nat) (u : Option String)
    (d : Option Int) (db : MetricsDB) :
    get_query_stats now (some "") d db = get_query_stats now none d db
    ∧ get_query_stats now u (some 0) db = get_query_stats now u none db := by
  constructor
  · have hm : rowMatches now (some "") d = rowMatches now none d := by
      funext r
      simp [rowMatches, userFilterActive]
    unfold get_query_stats
    rw [hm]
    rfl
  · have hm : rowMatches now u (some 0) = rowMatches now u none := by
      funext r
      simp [rowMatches, daysFilterActive]
    unfold get_query_stats
    rw [hm]
    rfl

end RagChat

